import Mathlib

/-!
Verification of the cpx file-transfer tool (src/main.rs, src/ssh.rs) against
its natural-language specification.  Rust functions are shallowly embedded as
Lean functions over lists of bytes (Nat, reduced mod 256 / 2^32 / 2^64 where
the machine width matters); external crates (sha2, crc32fast, zstd,
serde_json, ssh2) are modelled as stated in the doc comment of each
modelling definition.

The file is organised as definitions first, then lemmas and the claim
theorems.
-/

namespace Cpx

/-! ### Bytes and big-endian integers -/

/-- Rust (len as u32).to_be_bytes(): the four big-endian bytes of n mod 2^32. -/
def u32be (n : Nat) : List Nat :=
  [n / 16777216 % 256, n / 65536 % 256, n / 256 % 256, n % 256]

/-- Read four big-endian bytes off the front of a list, returning the decoded
value and the rest; none if fewer than four bytes remain. -/
def parse32 : List Nat → Option (Nat × List Nat)
  | a :: b :: c :: d :: r => some (((a * 256 + b) * 256 + c) * 256 + d, r)
  | _ => none

/-- Rust u64::to_be_bytes: the eight big-endian bytes of n mod 2^64. -/
def u64be (n : Nat) : List Nat :=
  [n / 72057594037927936 % 256, n / 281474976710656 % 256,
   n / 1099511627776 % 256, n / 4294967296 % 256,
   n / 16777216 % 256, n / 65536 % 256, n / 256 % 256, n % 256]

/-- Read eight big-endian bytes off the front of a list. -/
def parse64 : List Nat → Option (Nat × List Nat)
  | a :: b :: c :: d :: e :: f :: g :: h :: r =>
      some (((((((a * 256 + b) * 256 + c) * 256 + d) * 256 + e) * 256 + f)
        * 256 + g) * 256 + h, r)
  | _ => none

/-! ### CRC32 (crc32fast crate: CRC-32/ISO-HDLC, reflected polynomial
0xEDB88320, init 0xFFFFFFFF, xorout 0xFFFFFFFF), implemented bitwise. -/

def crc32Poly : Nat := 3988292384

def crc32Bit (c : Nat) : Nat :=
  if c % 2 = 1 then Nat.xor (c / 2) crc32Poly else c / 2

def crc32Byte (c b : Nat) : Nat :=
  crc32Bit (crc32Bit (crc32Bit (crc32Bit (crc32Bit (crc32Bit (crc32Bit
    (crc32Bit (Nat.xor c (b % 256)))))))))

/-- crc32fast::Hasher::update folds each byte into the running state. -/
def crc32Update (c : Nat) (data : List Nat) : Nat := data.foldl crc32Byte c

def crc32Init : Nat := 4294967295

def crc32Final (c : Nat) : Nat := Nat.xor c 4294967295

/-- The CRC32 of a whole byte sequence. -/
def crc32 (data : List Nat) : Nat := crc32Final (crc32Update crc32Init data)

/-! ### SHA-256 model -/

/-- Modelled from the spec: the 256-bit digest context of the external sha2
crate.  The claims under verification concern only which bytes are absorbed
into the context and whether two digests agree, never the value of the
compression function, so the state is modelled as the sequence of absorbed
bytes. -/
structure Sha256 where
  absorbed : List Nat
deriving DecidableEq

def Sha256.init : Sha256 := ⟨[]⟩

def Sha256.update (h : Sha256) (data : List Nat) : Sha256 := ⟨h.absorbed ++ data⟩

def Sha256.finalize (h : Sha256) : List Nat := h.absorbed

/-- The digest of a whole byte sequence. -/
def sha256 (data : List Nat) : List Nat := (Sha256.init.update data).finalize

/-! ### Chunked reading (send_file reads the source in 8192-byte chunks) -/

def bufSize : Nat := 8192

/-- The successive chunks returned by the read loop of send_file: each
iteration reads up to 8192 bytes; a read of 0 bytes ends the loop. -/
def readChunks (l : List Nat) : List (List Nat) :=
  match l with
  | [] => []
  | b :: r => (b :: r).take bufSize :: readChunks ((b :: r).drop bufSize)
termination_by l.length
decreasing_by simp [bufSize]; omega

/-! ### Fingerprint Scanner (collect_metadata, src/main.rs lines 64-78) -/

/-- The per-file fingerprint computed by collect_metadata: read the first
min(size, 4096) bytes into a buffer and hash them; when size > 4096, seek to
4096 bytes before the end, read the last 4096 bytes and fold them into the
same digest context. -/
def fingerprintHash (content : List Nat) : List Nat :=
  let size := content.length
  let buffer := content.take (min size 4096)
  let h := Sha256.init.update buffer
  let h := if 4096 < size then h.update (content.drop (size - 4096)) else h
  h.finalize

/-! ### Data model (FileInfo, DataHeader, DataFooter; src/main.rs 38-50,
105-117) -/

structure FileInfo where
  path : String
  size : Nat
  mtime : Nat
  hash : List Nat
  compressed : Bool
deriving DecidableEq

structure DataHeader where
  path : String
  size : Nat
  mtime : Nat
  compressed : Bool
deriving DecidableEq

structure DataFooter where
  crc32 : Nat
  sha256 : List Nat
deriving DecidableEq

/-! ### Serialization of header and footer.

The source serializes DataHeader and DataFooter with the external serde_json
crate.  The spec (§4.2) requires only "a stable, self-describing encoding"
and states that "exact byte-level compatibility with any prior version is
not required", so the records are modelled with a fixed field-order binary
encoding whose variable-length fields carry four-byte big-endian length
framing. -/

/-- Modelled from the spec: serialization of a string field (stable encoding,
§4.2); the code points of the string under a four-byte big-endian length. -/
def serString (s : String) : List Nat := u32be s.data.length ++ s.data.map Char.toNat

/-- Inverse of serString. -/
def parseString (l : List Nat) : Option (String × List Nat) :=
  match parse32 l with
  | none => none
  | some (n, r) =>
      if n ≤ r.length then some (String.mk ((r.take n).map Char.ofNat), r.drop n)
      else none

def serBool (b : Bool) : List Nat := [if b then 1 else 0]

def parseBool : List Nat → Option (Bool × List Nat)
  | [] => none
  | b :: r => if b = 1 then some (true, r) else if b = 0 then some (false, r) else none

/-- Modelled from the spec: serde_json::to_vec of a DataHeader, as a stable
field-order encoding (§4.2). -/
def serializeHeader (h : DataHeader) : List Nat :=
  serString h.path ++ u64be h.size ++ u64be h.mtime ++ serBool h.compressed

/-- Inverse of serializeHeader. -/
def parseHeader (l : List Nat) : Option (DataHeader × List Nat) :=
  match parseString l with
  | none => none
  | some (path, r1) =>
      match parse64 r1 with
      | none => none
      | some (size, r2) =>
          match parse64 r2 with
          | none => none
          | some (mtime, r3) =>
              match parseBool r3 with
              | none => none
              | some (compressed, r4) => some (⟨path, size, mtime, compressed⟩, r4)

/-- Modelled from the spec: serde_json::to_vec of a DataFooter, as a stable
field-order encoding (§4.2); the digest is carried under a four-byte
big-endian length. -/
def serializeFooter (f : DataFooter) : List Nat :=
  u32be f.crc32 ++ u32be f.sha256.length ++ f.sha256

/-- Inverse of serializeFooter. -/
def parseFooter (l : List Nat) : Option (DataFooter × List Nat) :=
  match parse32 l with
  | none => none
  | some (c, r1) =>
      match parse32 r1 with
      | none => none
      | some (n, r2) =>
          if n ≤ r2.length then some (⟨c, r2.take n⟩, r2.drop n) else none

/-! ### The Framed Codec writer (send_file, src/main.rs lines 119-182) -/

/-- The running state of send_file's copy loop: bytes written after the
header, the two hasher states, and the progress counter. -/
structure SendLoopState where
  out : List Nat
  crc : Nat
  sha : Sha256
  written : Nat
deriving DecidableEq

/-- One iteration of send_file's loop on a chunk read from the source: fold
the original bytes into both hashers, then write either the per-chunk
compressed bytes or the chunk verbatim.  The per-chunk zstd encoder
(external zstd crate, level 3) is abstracted as the function parameter
compress. -/
def sendChunk (compress : List Nat → List Nat) (compressed : Bool)
    (st : SendLoopState) (data : List Nat) : SendLoopState :=
  let crc := crc32Update st.crc data
  let sha := st.sha.update data
  if compressed then
    let compressedData := compress data
    ⟨st.out ++ compressedData, crc, sha, st.written + compressedData.length⟩
  else
    ⟨st.out ++ data, crc, sha, st.written + data.length⟩

/-- The state at the end of send_file's copy loop over the whole source. -/
def sendLoopFinal (compress : List Nat → List Nat) (compressed : Bool)
    (content : List Nat) : SendLoopState :=
  (readChunks content).foldl (sendChunk compress compressed)
    ⟨[], crc32Init, Sha256.init, 0⟩

/-- The DataFooter send_file writes after the payload. -/
def sendFileFooter (compress : List Nat → List Nat) (compressed : Bool)
    (content : List Nat) : DataFooter :=
  let st := sendLoopFinal compress compressed content
  ⟨crc32Final st.crc, st.sha.finalize⟩

/-- The payload bytes as a function of the chunks: each chunk compressed or
verbatim, concatenated in order. -/
def payloadBytes (compress : List Nat → List Nat) (compressed : Bool)
    (content : List Nat) : List Nat :=
  ((readChunks content).map (fun d => if compressed then compress d else d)).flatten

/-- send_file writing one file: the complete destination byte sequence,
mirroring the sequence of write_all calls (header length, header, loop
output, footer length, footer). -/
def sendFile (compress : List Nat → List Nat) (fi : FileInfo)
    (content : List Nat) : List Nat :=
  let header : DataHeader := ⟨fi.path, fi.size, fi.mtime, fi.compressed⟩
  let headerBytes := serializeHeader header
  let st := sendLoopFinal compress fi.compressed content
  let footer : DataFooter := ⟨crc32Final st.crc, st.sha.finalize⟩
  let footerBytes := serializeFooter footer
  u32be headerBytes.length ++ headerBytes ++ st.out
    ++ u32be footerBytes.length ++ footerBytes

/-- Modelled from the spec: the frame decoder of §4.2's decode contract,
which is absent from src/ (the source contains only the encoder send_file):
read and deserialize the length-prefixed header, pass the payload through
while recomputing CRC32 and SHA-256 over it, read and deserialize the
length-prefixed footer, and fail (none, an IntegrityError) when a recomputed
checksum differs from the footer's stored value.  A compressed frame would
need the inverse of the external per-chunk zstd encoder, whose framing the
spec leaves to the encoder; the round-trip claim under verification uses
compressed=false, and a compressed header is rejected here. -/
def decodeFrame (frame : List Nat) : Option (DataHeader × List Nat) :=
  match parse32 frame with
  | none => none
  | some (hlen, r1) =>
      match parseHeader (r1.take hlen) with
      | none => none
      | some (header, hrest) =>
          if hrest.isEmpty then
            if header.compressed then none
            else
              let r2 := r1.drop hlen
              if header.size ≤ r2.length then
                let payload := r2.take header.size
                let crcRecomputed := crc32 payload
                let shaRecomputed := sha256 payload
                let r3 := r2.drop header.size
                match parse32 r3 with
                | none => none
                | some (flen, r4) =>
                    match parseFooter (r4.take flen) with
                    | none => none
                    | some (footer, frest) =>
                        if frest.isEmpty then
                          if footer.crc32 = crcRecomputed ∧ footer.sha256 = shaRecomputed
                          then some (header, payload)
                          else none
                        else none
              else none
          else none

/-! ### Compressibility policy (should_compress, src/main.rs lines 97-103) -/

/-- Rust Path::file_name of a relative path string: the final '/'-separated
component, with empty and "." components dropped as Rust's component
normalization does; none when nothing remains or the final component
is "..". -/
def fileNameOf (path : String) : Option (List Char) :=
  match ((path.data.splitOn '/').filter
      (fun c => c != ([] : List Char) && c != ['.'])).getLast? with
  | none => none
  | some cs => if cs = ['.', '.'] then none else some cs

/-- Rust Path::extension: the portion of the file name after its last '.';
none when there is no file name, the name has no '.', or its only '.' is the
leading character (hidden files). -/
def extensionOf (path : String) : Option (List Char) :=
  match fileNameOf path with
  | none => none
  | some fn =>
      let rev := fn.reverse
      let ext := rev.takeWhile (fun c => c != '.')
      if ext.length = rev.length then none
      else if ext.length + 1 = rev.length then none
      else some ext.reverse

/-- ASCII lower-casing of one character; the allow-list below is pure ASCII,
for which Rust str::to_lowercase agrees with the ASCII case map. -/
def asciiLower (c : Char) : Char :=
  if 'A' ≤ c ∧ c ≤ 'Z' then Char.ofNat (c.toNat + 32) else c

/-- The fixed extension allow-list of should_compress. -/
def compressibleExts : List String :=
  ["txt", "log", "csv", "json", "xml", "html", "css", "js", "yaml", "yml",
   "md", "toml"]

/-- should_compress (src/main.rs lines 97-103): the lower-cased extension of
the path (the empty string when there is none) looked up in the fixed
allow-list. -/
def should_compress (path : String) : Bool :=
  let ext := (match extensionOf path with
    | none => ([] : List Char)
    | some cs => cs).map asciiLower
  (compressibleExts.map String.data).contains ext

/-! ### Scan loop and its error behaviour (collect_metadata,
src/main.rs lines 52-95) -/

/-- What the filesystem presents for one directory entry at the successive
observation points of collect_metadata's loop: the stripped path string,
whether the walker yielded the entry Ok, whether path.is_file() held,
whether path.metadata() succeeded (false models a file that vanished before
the stat), the modification time, and the bytes obtained by opening and
reading the file (none models a file that vanished or became unreadable at
open/read). -/
structure EntryObs where
  path : String
  walkOk : Bool
  isFile : Bool
  statOk : Bool
  mtime : Nat
  content : Option (List Nat)
deriving DecidableEq

/-- One iteration of collect_metadata's entry loop: entries the walker
yielded as Err are dropped by filter_map(Result::ok); non-files are skipped;
a failing stat or open/read propagates as an error through the ? operator;
otherwise a FileInfo is produced with the sampling fingerprint and the
extension-derived compressed flag. -/
def collectEntry (e : EntryObs) : Except String (Option FileInfo) :=
  if e.walkOk = false then .ok none
  else if e.isFile = false then .ok none
  else if e.statOk = false then .error "metadata"
  else match e.content with
    | none => .error "open"
    | some content =>
        .ok (some ⟨e.path, content.length, e.mtime, fingerprintHash content,
          should_compress e.path⟩)

/-- collect_metadata over the walked entries: the first entry error aborts
the whole scan (and with it the run), successful entries accumulate in
discovery order. -/
def collect_metadata (entries : List EntryObs) : Except String (List FileInfo) :=
  match entries with
  | [] => .ok []
  | e :: rest =>
      match collectEntry e with
      | .error msg => .error msg
      | .ok none => collect_metadata rest
      | .ok (some fi) =>
          match collect_metadata rest with
          | .error msg => .error msg
          | .ok fis => .ok (fi :: fis)

/-! ### Source-tree walking and manifest paths (collect_metadata,
src/main.rs lines 52-95) -/

/-- An in-memory source tree: a named regular file or a named directory. -/
inductive FsTree where
  | file (name : String) (content : List Nat)
  | dir (name : String) (children : List FsTree)

def FsTree.name : FsTree → String
  | .file n _ => n
  | .dir n _ => n

mutual

/-- The regular files found by walkdir under one root, as (path components,
content): the path starts with the root's own name, exactly what
strip_prefix(src.parent()) leaves of the walked absolute path. -/
def walkFiles : FsTree → List (List String × List Nat)
  | .file n c => [([n], c)]
  | .dir n cs => (walkForest cs).map (fun pc => (n :: pc.1, pc.2))

/-- The files of a list of sibling trees, in order. -/
def walkForest : List FsTree → List (List String × List Nat)
  | [] => []
  | t :: ts => walkFiles t ++ walkForest ts

end

/-- The relativePath column of the manifest produced by scanning the given
source roots in order (the for src in sources loop). -/
def manifestPaths (roots : List FsTree) : List (List String) :=
  (roots.map (fun t => (walkFiles t).map Prod.fst)).flatten

mutual

/-- A tree is well formed when every directory's children bear pairwise
distinct names, as the entries of one real directory always do. -/
def wellFormed : FsTree → Prop
  | .file _ _ => True
  | .dir _ cs => (cs.map FsTree.name).Nodup ∧ wellFormedForest cs

def wellFormedForest : List FsTree → Prop
  | [] => True
  | t :: ts => wellFormed t ∧ wellFormedForest ts

end

/-! ### Scheduler (handle_local_transfer, src/main.rs lines 197-249) -/

/-- src/main.rs line 14. -/
def PARALLELISM : Nat := 8

/-- The default of the jobs argument (Args, src/main.rs line 30). -/
def defaultJobs : Nat := PARALLELISM

inductive TaskStatus where
  | pending
  | running
  | done
deriving DecidableEq

/-- The scheduler state: one status per spawned task, and the number of free
permits of the tokio semaphore. -/
structure SchedState where
  statuses : List TaskStatus
  permits : Nat
deriving DecidableEq

/-- Initial state: m spawned tasks all waiting to acquire, and a semaphore
created with Semaphore::new(args.jobs). -/
def SchedState.init (jobs m : Nat) : SchedState :=
  ⟨List.replicate m .pending, jobs⟩

/-- The number of tasks whose transfer is currently active. -/
def SchedState.running (s : SchedState) : Nat :=
  s.statuses.countP (fun t => t == TaskStatus.running)

/-- The interleaving semantics of handle_local_transfer's spawned tasks: a
task enters its transfer only by sem.acquire() succeeding, which requires a
free permit and consumes it; when the task reaches its terminal state —
whether send_file returned Ok or Err (the success flag) — the permit guard
is dropped and the permit returns to the semaphore unconditionally. -/
inductive SchedStep : SchedState → SchedState → Prop where
  | start (s : SchedState) (i : Nat) (h : s.statuses[i]? = some .pending)
      (hp : 0 < s.permits) :
      SchedStep s ⟨s.statuses.set i .running, s.permits - 1⟩
  | finish (s : SchedState) (i : Nat) (success : Bool)
      (h : s.statuses[i]? = some .running) :
      SchedStep s ⟨s.statuses.set i .done, s.permits + 1⟩

/-- The states a run with the given jobs value and manifest size can reach. -/
def SchedReachable (jobs m : Nat) (s : SchedState) : Prop :=
  Relation.ReflTransGen SchedStep (SchedState.init jobs m) s

/-! ### Remote session authentication (SshTransfer::new, src/ssh.rs
lines 34-92) -/

/-- The environment SshTransfer::new consults, in the order the source
consults it: whether userauth_agent succeeds; the HOME (or else USERPROFILE)
variable; whether ~/.ssh/id_rsa.pub and ~/.ssh/id_rsa exist; whether
userauth_pubkey_file succeeds; the SSH_PASSWORD variable; which passwords
userauth_password accepts; and what the interactive prompt returns. -/
structure SshEnv where
  agentOk : Bool
  homeDir : Option String
  pubKeyExists : Bool
  privKeyExists : Bool
  pubkeyAuthOk : Bool
  sshPasswordVar : Option String
  passwordOk : String → Bool
  promptedPassword : String

inductive AuthMethod where
  | agent
  | pubkey
  | envPassword
  | promptPassword
deriving DecidableEq

/-- The authentication ladder of SshTransfer::new: agent first; then the
default key pair, attempted only when a home directory is known and both
key files exist; then the environment password; then the prompted password;
each later rung only reached while auth_success is still false. -/
def authenticate (e : SshEnv) : Option AuthMethod :=
  if e.agentOk then some .agent
  else if e.homeDir.isSome && e.pubKeyExists && e.privKeyExists && e.pubkeyAuthOk then
    some .pubkey
  else if (match e.sshPasswordVar with
    | some pw => e.passwordOk pw
    | none => false) then some .envPassword
  else if e.passwordOk e.promptedPassword then some .promptPassword
  else none

/-- SshTransfer::new: an Ok session records which rung authenticated it;
exhausting the ladder returns the fatal authentication error. -/
def sshTransferNew (e : SshEnv) : Except String AuthMethod :=
  match authenticate e with
  | some m => .ok m
  | none => .error "Unable to authenticate with SSH server."

/-- handle_ssh_transfer (src/main.rs lines 251-334) reduced to what the
claim concerns: SshTransfer::new runs behind the ? operator before any file
is sent, so an authentication failure aborts the run with no transfers; on
success every manifest entry is dispatched. -/
def handle_ssh_transfer (e : SshEnv) (manifest : List FileInfo) :
    Except String (List String) :=
  match sshTransferNew e with
  | .error msg => .error msg
  | .ok _ => .ok (manifest.map (fun fi => fi.path))

/-! ### Backend selection (main, src/main.rs lines 184-195, and
parse_ssh_destination, lines 337-350) -/

/-- Rust str::find(char): the position of the first occurrence. -/
def strFind (s : String) (c : Char) : Option Nat :=
  s.data.findIdx? (fun x => x == c)

/-- parse_ssh_destination: accepts exactly the strings whose first ':'
occurs after the first '@', splitting at that first ':'. -/
def parse_ssh_destination (destination : String) :
    Except String (String × String) :=
  match strFind destination '@' with
  | some atPos =>
      match strFind destination ':' with
      | some colonPos =>
          if atPos < colonPos then
            .ok (⟨destination.data.take colonPos⟩,
                 ⟨destination.data.drop (colonPos + 1)⟩)
          else .error "Invalid SSH destination format. Expected user@host:path"
      | none => .error "Invalid SSH destination format. Expected user@host:path"
  | none => .error "Invalid SSH destination format. Expected user@host:path"

inductive Backend where
  | localFs
  | sshRemote
deriving DecidableEq

/-- main (src/main.rs lines 184-195): the dispatch between
handle_ssh_transfer and handle_local_transfer reads only args.ssh; the
destination string is not consulted for the choice. -/
def mainBackend (sshFlag : Bool) (destination : String) : Backend :=
  if sshFlag then .sshRemote else .localFs

/-- The destination shape named by the claim: an '@' and a ':' are present
with the '@' before the ':' (first occurrences, as str::find computes). -/
def remoteShaped (destination : String) : Bool :=
  match strFind destination '@', strFind destination ':' with
  | some a, some c => decide (a < c)
  | _, _ => false

/-! ### Command-line arguments (Args, src/main.rs lines 16-36) -/

structure Args where
  source : List String
  destination : String
  compress : Bool
  jobs : Nat
  ssh : Bool
deriving DecidableEq

/-- The compressed flag collect_metadata assigns to a scanned file within a
run with the given arguments (src/main.rs lines 80-81): should_compress of
the stripped path; args.compress is never read anywhere in the source. -/
def entryCompressed (args : Args) (pathStr : String) : Bool :=
  should_compress pathStr

/-- The complete frame a run with the given arguments writes for one file
(scan assigns the compressed flag, send_file writes accordingly). -/
def localFrame (args : Args) (compress : List Nat → List Nat) (p : String)
    (mtime : Nat) (content : List Nat) : List Nat :=
  sendFile compress
    ⟨p, content.length, mtime, fingerprintHash content, entryCompressed args p⟩
    content

/-! ### Lemmas -/

theorem u32be_length (n : Nat) : (u32be n).length = 4 := rfl

theorem u64be_length (n : Nat) : (u64be n).length = 8 := rfl

theorem parse32_u32be (n : Nat) (r : List Nat) :
    parse32 (u32be n ++ r) = some (n % 4294967296, r) := by
  simp only [u32be, List.cons_append, List.nil_append, parse32, Option.some.injEq,
    Prod.mk.injEq]
  exact ⟨by omega, trivial⟩

theorem parse64_u64be (n : Nat) (r : List Nat) :
    parse64 (u64be n ++ r) = some (n % 18446744073709551616, r) := by
  simp only [u64be, List.cons_append, List.nil_append, parse64, Option.some.injEq,
    Prod.mk.injEq]
  exact ⟨by omega, trivial⟩

theorem crc32Update_append (c : Nat) (a b : List Nat) :
    crc32Update (crc32Update c a) b = crc32Update c (a ++ b) := by
  simp [crc32Update, List.foldl_append]

theorem sha256_absorbed (data : List Nat) : sha256 data = data := by
  simp [sha256, Sha256.update, Sha256.init, Sha256.finalize]

theorem readChunks_flatten (l : List Nat) : (readChunks l).flatten = l := by
  induction l using readChunks.induct with
  | case1 => simp [readChunks]
  | case2 b r ih =>
      rw [readChunks]
      simp only [List.flatten_cons, ih, List.take_append_drop]

theorem sendLoop_foldl (compress : List Nat → List Nat) (compressed : Bool)
    (cs : List (List Nat)) (st : SendLoopState) :
    cs.foldl (sendChunk compress compressed) st =
      ⟨st.out ++ (cs.map (fun d => if compressed then compress d else d)).flatten,
       crc32Update st.crc cs.flatten,
       st.sha.update cs.flatten,
       st.written + ((cs.map (fun d => if compressed then compress d else d)).flatten).length⟩ := by
  induction cs generalizing st with
  | nil =>
      simp [crc32Update, Sha256.update]
  | cons c cs ih =>
      rw [List.foldl_cons, ih]
      cases compressed with
      | false =>
          simp [sendChunk, Sha256.update, ← crc32Update_append, List.append_assoc]
          omega
      | true =>
          simp [sendChunk, Sha256.update, ← crc32Update_append, List.append_assoc]
          omega

theorem crc32Bit_lt {c : Nat} (h : c < 4294967296) : crc32Bit c < 4294967296 := by
  have e : (4294967296 : Nat) = 2 ^ 32 := by norm_num
  unfold crc32Bit
  split
  · rw [e]
    exact Nat.xor_lt_two_pow (by omega) (by norm_num [crc32Poly])
  · omega

theorem crc32Byte_lt {c : Nat} (b : Nat) (h : c < 4294967296) :
    crc32Byte c b < 4294967296 := by
  have e : (4294967296 : Nat) = 2 ^ 32 := by norm_num
  have h0 : Nat.xor c (b % 256) < 4294967296 := by
    rw [e]
    exact Nat.xor_lt_two_pow (by omega) (by omega)
  exact crc32Bit_lt (crc32Bit_lt (crc32Bit_lt (crc32Bit_lt (crc32Bit_lt
    (crc32Bit_lt (crc32Bit_lt (crc32Bit_lt h0)))))))

theorem crc32Update_lt (data : List Nat) {c : Nat} (h : c < 4294967296) :
    crc32Update c data < 4294967296 := by
  induction data generalizing c with
  | nil => exact h
  | cons b rest ih => exact ih (crc32Byte_lt b h)

theorem crc32_lt (data : List Nat) : crc32 data < 4294967296 := by
  have e : (4294967296 : Nat) = 2 ^ 32 := by norm_num
  unfold crc32 crc32Final
  rw [e]
  exact Nat.xor_lt_two_pow (e ▸ crc32Update_lt data (by norm_num [crc32Init]))
    (by norm_num)

theorem parseString_serString (s : String) (r : List Nat)
    (h : s.data.length < 4294967296) :
    parseString (serString s ++ r) = some (s, r) := by
  have hlen : (s.data.map Char.toNat).length = s.data.length := by simp
  unfold parseString serString
  rw [List.append_assoc, parse32_u32be, Nat.mod_eq_of_lt h]
  simp only [← hlen, List.take_left, List.drop_left]
  rw [if_pos (by simp)]
  have hmap : ((s.data.map Char.toNat).map Char.ofNat) = s.data := by
    rw [List.map_map]
    conv_rhs => rw [← List.map_id s.data]
    exact List.map_congr_left fun c _hc => Char.ofNat_toNat c
  rw [hmap]

theorem parseBool_serBool (b : Bool) (r : List Nat) :
    parseBool (serBool b ++ r) = some (b, r) := by
  cases b <;> simp [serBool, parseBool]

theorem parseHeader_serializeHeader (h : DataHeader) (r : List Nat)
    (hp : h.path.data.length < 4294967296)
    (hs : h.size < 18446744073709551616)
    (hm : h.mtime < 18446744073709551616) :
    parseHeader (serializeHeader h ++ r) = some (h, r) := by
  unfold parseHeader serializeHeader
  rw [List.append_assoc, List.append_assoc, List.append_assoc,
    parseString_serString _ _ hp]
  simp only [parse64_u64be, Nat.mod_eq_of_lt hs, Nat.mod_eq_of_lt hm,
    parseBool_serBool]

theorem parseFooter_serializeFooter (f : DataFooter) (r : List Nat)
    (hc : f.crc32 < 4294967296)
    (hd : f.sha256.length < 4294967296) :
    parseFooter (serializeFooter f ++ r) = some (f, r) := by
  unfold parseFooter serializeFooter
  rw [List.append_assoc, List.append_assoc, parse32_u32be, Nat.mod_eq_of_lt hc]
  simp only [parse32_u32be, Nat.mod_eq_of_lt hd, List.take_left, List.drop_left]
  rw [if_pos (by simp)]

theorem serializeHeader_length (h : DataHeader) :
    (serializeHeader h).length = h.path.data.length + 21 := by
  simp [serializeHeader, serString, serBool, u32be, u64be]

theorem serializeFooter_length (f : DataFooter) :
    (serializeFooter f).length = f.sha256.length + 8 := by
  simp [serializeFooter, u32be]

theorem payloadBytes_uncompressed (compress : List Nat → List Nat)
    (content : List Nat) : payloadBytes compress false content = content := by
  simp [payloadBytes, readChunks_flatten]

theorem sendFile_layout (compress : List Nat → List Nat) (fi : FileInfo)
    (content : List Nat) :
    sendFile compress fi content =
      u32be (serializeHeader ⟨fi.path, fi.size, fi.mtime, fi.compressed⟩).length
        ++ serializeHeader ⟨fi.path, fi.size, fi.mtime, fi.compressed⟩
        ++ payloadBytes compress fi.compressed content
        ++ u32be (serializeFooter (sendFileFooter compress fi.compressed content)).length
        ++ serializeFooter (sendFileFooter compress fi.compressed content) := by
  simp only [sendFile, sendFileFooter, payloadBytes, sendLoopFinal, sendLoop_foldl,
    List.nil_append, List.append_assoc]

theorem sendFileFooter_checksums (compress : List Nat → List Nat)
    (compressed : Bool) (content : List Nat) :
    sendFileFooter compress compressed content =
      ⟨crc32 content, sha256 content⟩ := by
  simp only [sendFileFooter, sendLoopFinal, sendLoop_foldl, readChunks_flatten,
    crc32, sha256, Sha256.finalize, Sha256.update, Sha256.init, List.nil_append]

/-- C2: for every file written by the Local backend, the destination byte
sequence is exactly a big-endian 32-bit header-length, the serialized header
(carrying the file's path, size, mtime and compressed flag), the payload
bytes (each 8192-byte source chunk compressed or verbatim according to the
compressed flag, concatenated in read order), a big-endian 32-bit
footer-length, and the serialized footer, in that order. -/
theorem C2_local_frame_layout (compress : List Nat → List Nat) (fi : FileInfo)
    (content : List Nat) :
    sendFile compress fi content =
      u32be (serializeHeader ⟨fi.path, fi.size, fi.mtime, fi.compressed⟩).length
        ++ serializeHeader ⟨fi.path, fi.size, fi.mtime, fi.compressed⟩
        ++ payloadBytes compress fi.compressed content
        ++ u32be (serializeFooter (sendFileFooter compress fi.compressed content)).length
        ++ serializeFooter (sendFileFooter compress fi.compressed content) :=
  sendFile_layout compress fi content

/-- C3: the CRC32 and SHA-256 stored in the frame footer are computed over
the uncompressed bytes read from the source, chunk by chunk, for either
value of the compressed flag. -/
theorem C3_footer_over_source_bytes (compress : List Nat → List Nat)
    (compressed : Bool) (content : List Nat) :
    sendFileFooter compress compressed content =
      ⟨crc32 content, sha256 content⟩ :=
  sendFileFooter_checksums compress compressed content

/-- C4: the Scanner's fingerprint is a digest over the first min(size, 4096)
bytes of the file and, only when size exceeds 4096, additionally over the
last 4096 bytes, appended in that order into the same digest context. -/
theorem C4_fingerprint_windows (content : List Nat) :
    fingerprintHash content =
      sha256 (content.take (min content.length 4096) ++
        (if 4096 < content.length then content.drop (content.length - 4096) else []))
    ∧ (4096 < content.length → (content.drop (content.length - 4096)).length = 4096) := by
  constructor
  · unfold fingerprintHash sha256
    by_cases hc : 4096 < content.length
    · simp [hc, Sha256.update, Sha256.init, Sha256.finalize]
    · simp [hc, Sha256.update, Sha256.init, Sha256.finalize]
  · intro h
    rw [List.length_drop]
    omega

/-- Witness for C4 at a concrete 5000-byte file. -/
theorem C4_fingerprint_windows_witness :
    (List.drop ((List.replicate 5000 (7 : Nat)).length - 4096)
      (List.replicate 5000 (7 : Nat))).length = 4096 :=
  (C4_fingerprint_windows (List.replicate 5000 7)).2 (by rw [List.length_replicate]; norm_num)

theorem parseHeader_serializeHeader_nil (h : DataHeader)
    (hp : h.path.data.length < 4294967296)
    (hs : h.size < 18446744073709551616)
    (hm : h.mtime < 18446744073709551616) :
    parseHeader (serializeHeader h) = some (h, []) := by
  have e := parseHeader_serializeHeader h [] hp hs hm
  rwa [List.append_nil] at e

theorem parseFooter_serializeFooter_nil (f : DataFooter)
    (hc : f.crc32 < 4294967296)
    (hd : f.sha256.length < 4294967296) :
    parseFooter (serializeFooter f) = some (f, []) := by
  have e := parseFooter_serializeFooter f [] hc hd
  rwa [List.append_nil] at e

/-- C8: encoding any byte sequence (including the empty one) through the
Framed Codec with compressed=false and then decoding the frame returns the
original byte sequence, the CRC32 and SHA-256 recomputed during decoding
agreeing with the footer's stored values (the decoder returns none on any
mismatch, so a some result certifies the match). -/
theorem C8_roundtrip_uncompressed (compress : List Nat → List Nat)
    (path : String) (mtime : Nat) (hash : List Nat) (content : List Nat)
    (hp : path.data.length + 21 < 4294967296)
    (hm : mtime < 18446744073709551616)
    (hc : content.length + 8 < 4294967296) :
    decodeFrame (sendFile compress ⟨path, content.length, mtime, hash, false⟩ content) =
      some (⟨path, content.length, mtime, false⟩, content) := by
  have hH : (serializeHeader ⟨path, content.length, mtime, false⟩).length
      < 4294967296 := by
    rw [serializeHeader_length]
    exact hp
  have hF : (serializeFooter ⟨crc32 content, sha256 content⟩).length
      < 4294967296 := by
    rw [serializeFooter_length]
    dsimp only
    rw [sha256_absorbed]
    omega
  rw [sendFile_layout]
  dsimp only
  rw [sendFileFooter_checksums, payloadBytes_uncompressed]
  simp only [List.append_assoc]
  unfold decodeFrame
  rw [parse32_u32be, Nat.mod_eq_of_lt hH]
  simp only [List.take_left, List.drop_left]
  rw [parseHeader_serializeHeader_nil _ (by show path.data.length < 4294967296; omega)
    (by show content.length < 18446744073709551616; omega)
    (by show mtime < 18446744073709551616; exact hm)]
  simp only [List.isEmpty_nil, if_true]
  rw [if_neg (by simp), if_pos (by simp), List.take_left, List.drop_left,
    parse32_u32be, Nat.mod_eq_of_lt hF]
  simp only [List.take_length,
    parseFooter_serializeFooter_nil ⟨crc32 content, sha256 content⟩
      (crc32_lt content) (by dsimp only; rw [sha256_absorbed]; omega),
    List.isEmpty_nil, if_true]
  simp

theorem sched_step_preserves {jobs : Nat} {s1 s2 : SchedState}
    (hstep : SchedStep s1 s2) (ih : s1.running + s1.permits = jobs) :
    s2.running + s2.permits = jobs := by
  cases hstep with
  | start i hst hp =>
      have hi : i < s1.statuses.length := by
        by_contra hcon
        push_neg at hcon
        rw [List.getElem?_eq_none hcon] at hst
        cases hst
      have hget : s1.statuses[i] = TaskStatus.pending := by
        have e := List.getElem?_eq_getElem hi
        rw [e] at hst
        exact Option.some.inj hst
      show (s1.statuses.set i TaskStatus.running).countP
          (fun t => t == TaskStatus.running) + (s1.permits - 1) = jobs
      rw [List.countP_set _ _ _ _ hi, hget]
      simp only [SchedState.running] at ih
      simp
      omega
  | finish i success hst =>
      have hi : i < s1.statuses.length := by
        by_contra hcon
        push_neg at hcon
        rw [List.getElem?_eq_none hcon] at hst
        cases hst
      have hget : s1.statuses[i] = TaskStatus.running := by
        have e := List.getElem?_eq_getElem hi
        rw [e] at hst
        exact Option.some.inj hst
      have hpos : 0 < s1.statuses.countP (fun t => t == TaskStatus.running) := by
        rw [List.countP_pos_iff]
        exact ⟨s1.statuses[i], List.getElem_mem hi, by simp [hget]⟩
      show (s1.statuses.set i TaskStatus.done).countP
          (fun t => t == TaskStatus.running) + (s1.permits + 1) = jobs
      rw [List.countP_set _ _ _ _ hi, hget]
      simp only [SchedState.running] at ih
      simp
      omega

theorem sched_run_permits (jobs m : Nat) (s : SchedState)
    (h : SchedReachable jobs m s) : s.running + s.permits = jobs := by
  induction h with
  | refl =>
      simp [SchedState.init, SchedState.running, List.countP_replicate]
  | tail _hsteps hstep ih =>
      exact sched_step_preserves hstep ih

/-- C1: in a run with concurrency value jobs over a manifest of m files, no
reachable scheduler state has more than jobs transfers simultaneously
active: a task starts only by taking a free semaphore permit and returns it
unconditionally at its terminal state (success or failure, by the
SchedStep.finish rule); the default concurrency is 8. -/
theorem C1_concurrency_bound (jobs m : Nat) (s : SchedState)
    (h : SchedReachable jobs m s) :
    s.running ≤ jobs ∧ defaultJobs = 8 := by
  have e := sched_run_permits jobs m s h
  exact ⟨by omega, rfl⟩

/-- Witness for C1: the state after one admission in a run with jobs = 1
over two tasks. -/
theorem C1_concurrency_bound_witness :
    (⟨[TaskStatus.running, TaskStatus.pending], 0⟩ : SchedState).running ≤ 1
    ∧ defaultJobs = 8 :=
  C1_concurrency_bound 1 2 ⟨[TaskStatus.running, TaskStatus.pending], 0⟩
    (Relation.ReflTransGen.single
      (SchedStep.start (SchedState.init 1 2) 0 (by decide) (by decide)))

theorem collectEntry_isOk (e : EntryObs) :
    (collectEntry e).isOk =
      (!e.walkOk || !e.isFile || (e.statOk && e.content.isSome)) := by
  cases hw : e.walkOk <;> cases hf : e.isFile <;> cases hs : e.statOk <;>
    cases hc : e.content <;> simp [collectEntry, hw, hf, hs, hc, Except.isOk, Except.toBool]

theorem collect_metadata_cons_isOk (e : EntryObs) (rest : List EntryObs) :
    (collect_metadata (e :: rest)).isOk =
      ((collectEntry e).isOk && (collect_metadata rest).isOk) := by
  rw [collect_metadata]
  cases collectEntry e with
  | error msg => simp [Except.isOk, Except.toBool]
  | ok v =>
      cases v with
      | none => simp [Except.isOk, Except.toBool]
      | some fi =>
          cases collect_metadata rest with
          | error msg => simp [Except.isOk, Except.toBool]
          | ok fis => simp [Except.isOk, Except.toBool]

theorem collect_metadata_isOk_all (entries : List EntryObs) :
    (collect_metadata entries).isOk =
      entries.all (fun e => (collectEntry e).isOk) := by
  induction entries with
  | nil => rfl
  | cons e rest ih => rw [collect_metadata_cons_isOk, ih, List.all_cons]

/-- C5 counterexample: one file that vanishes between the directory listing
and its stat (walkdir yielded it Ok and is_file saw it, path.metadata()
then failed) makes collect_metadata return the error: the scan is fatal to
the run, not a logged skip. -/
theorem C5_counterexample :
    (collect_metadata [⟨"gone.txt", true, true, false, 0, none⟩]).isOk
      = false := rfl

/-- C5 (amended): entries the directory walker itself yields as errors are
silently dropped and the scan continues, and a scan over walked files whose
stat and open/read all succeed completes; but a file that vanishes or
becomes unreadable between the file-type check and its stat or open/read
makes collect_metadata return the error, fatal to the run (no warning is
produced). -/
theorem C5_scan_error_fatality (entries : List EntryObs) :
    ((∀ e ∈ entries, e.walkOk = true → e.isFile = true →
        e.statOk = true ∧ e.content.isSome = true) →
      (collect_metadata entries).isOk = true)
    ∧ (∀ e ∈ entries, e.walkOk = true → e.isFile = true →
        e.statOk = false ∨ e.content = none →
        (collect_metadata entries).isOk = false) := by
  constructor
  · intro hall
    rw [collect_metadata_isOk_all, List.all_eq_true]
    intro e he
    rw [collectEntry_isOk]
    cases hw : e.walkOk with
    | false => simp
    | true =>
        cases hf : e.isFile with
        | false => simp
        | true =>
            obtain ⟨hs, hc⟩ := hall e he hw hf
            simp [hs, hc]
  · intro f hf hw hif hbad
    rw [collect_metadata_isOk_all]
    rw [List.all_eq_false]
    refine ⟨f, hf, ?_⟩
    rw [collectEntry_isOk, hw, hif]
    rcases hbad with hb | hb <;> simp [hb]

/-- Witness for C5's amended statement: a file unreadable at open makes the
scan fail. -/
theorem C5_scan_error_fatality_witness :
    (collect_metadata [⟨"locked.txt", true, true, true, 5, none⟩]).isOk
      = false :=
  (C5_scan_error_fatality [⟨"locked.txt", true, true, true, 5, none⟩]).2
    ⟨"locked.txt", true, true, true, 5, none⟩ (by simp) rfl rfl (Or.inr rfl)

/-- C6: SshTransfer::new tries authentication in the fixed order agent,
default key pair (only when a home directory is known and both key files
exist), environment password, prompted password, stopping at the first
success; exhausting all four makes session construction return the fatal
authentication error, and handle_ssh_transfer then aborts before any
transfer. -/
theorem C6_auth_priority_order (e : SshEnv) :
    (e.agentOk = true → authenticate e = some AuthMethod.agent)
    ∧ (e.agentOk = false → e.homeDir.isSome = true → e.pubKeyExists = true →
        e.privKeyExists = true → e.pubkeyAuthOk = true →
        authenticate e = some AuthMethod.pubkey)
    ∧ ((e.pubKeyExists = false ∨ e.privKeyExists = false) →
        authenticate e ≠ some AuthMethod.pubkey)
    ∧ (∀ pw, e.agentOk = false →
        (e.homeDir.isSome && e.pubKeyExists && e.privKeyExists
          && e.pubkeyAuthOk) = false →
        e.sshPasswordVar = some pw → e.passwordOk pw = true →
        authenticate e = some AuthMethod.envPassword)
    ∧ (e.agentOk = false →
        (e.homeDir.isSome && e.pubKeyExists && e.privKeyExists
          && e.pubkeyAuthOk) = false →
        (match e.sshPasswordVar with
          | some pw => e.passwordOk pw
          | none => false) = false →
        e.passwordOk e.promptedPassword = true →
        authenticate e = some AuthMethod.promptPassword)
    ∧ (authenticate e = none →
        ∀ manifest, handle_ssh_transfer e manifest =
          .error "Unable to authenticate with SSH server.") := by
  refine ⟨?_, ?_, ?_, ?_, ?_, ?_⟩
  · intro h
    simp [authenticate, h]
  · intro h1 h2 h3 h4 h5
    simp [authenticate, h1, h2, h3, h4, h5]
  · intro hk hcon
    unfold authenticate at hcon
    split_ifs at hcon with h1 h2 h3 h4 <;> simp_all
  · intro pw h1 h2 h3 h4
    simp [authenticate, h1, h2, h3, h4]
  · intro h1 h2 h3 h4
    simp [authenticate, h1, h2, h3, h4]
  · intro hn manifest
    simp [handle_ssh_transfer, sshTransferNew, hn]

/-- Witness for C6: an environment in which all four rungs fail aborts the
run with the fatal authentication error and no transfers. -/
theorem C6_auth_priority_order_witness :
    handle_ssh_transfer
      ⟨false, none, false, false, false, none, fun _ => false, "pw"⟩ [] =
      .error "Unable to authenticate with SSH server." :=
  (C6_auth_priority_order
    ⟨false, none, false, false, false, none, fun _ => false, "pw"⟩).2.2.2.2.2
    rfl []

/-- C7 counterexample: with the --ssh flag absent, the destination string
user@host:path — which does contain an '@' before a ':' — still selects the
local backend: main's dispatch ignores the destination string, refuting the
claim that the destination shape alone selects the backend. -/
theorem C7_counterexample :
    mainBackend false "user@host:path" = Backend.localFs
    ∧ remoteShaped "user@host:path" = true := by
  exact ⟨rfl, by decide⟩

/-- C7 (amended): the backend is selected by the --ssh flag alone — remote
exactly when the flag is set, local otherwise; the destination string's
shape only decides, once the remote path is taken, whether
parse_ssh_destination accepts it, which happens exactly when the first '@'
occurs before the first ':'. -/
theorem C7_backend_selection (sshFlag : Bool) (destination : String) :
    (mainBackend sshFlag destination = Backend.sshRemote ↔ sshFlag = true)
    ∧ (parse_ssh_destination destination).isOk = remoteShaped destination := by
  constructor
  · cases sshFlag <;> simp [mainBackend]
  · unfold parse_ssh_destination remoteShaped
    cases h1 : strFind destination '@' <;> cases h2 : strFind destination ':' <;>
      simp [Except.isOk, Except.toBool]
    split_ifs with h <;> simp [Except.isOk, Except.toBool, h]

/-- Witness for C7's amended statement at a concrete flag and destination. -/
theorem C7_backend_selection_witness :
    mainBackend true "h:p" = Backend.sshRemote :=
  (C7_backend_selection true "h:p").1.mpr rfl

theorem walkFiles_shape (t : FsTree) :
    ∀ p ∈ walkFiles t, ∃ q, p.1 = t.name :: q := by
  cases t with
  | file n c =>
      intro p hp
      rw [walkFiles] at hp
      simp at hp
      exact ⟨[], by simp [hp, FsTree.name]⟩
  | dir n cs =>
      intro p hp
      rw [walkFiles] at hp
      obtain ⟨pc, _hpc, hfst⟩ := List.mem_map.mp hp
      exact ⟨pc.1, by rw [← hfst]; simp [FsTree.name]⟩

theorem walkForest_shape (ts : List FsTree) :
    ∀ p ∈ walkForest ts, ∃ t ∈ ts, ∃ q, p.1 = t.name :: q := by
  induction ts with
  | nil =>
      intro p hp
      rw [walkForest] at hp
      cases hp
  | cons t ts ih =>
      intro p hp
      rw [walkForest] at hp
      rcases List.mem_append.mp hp with h | h
      · obtain ⟨q, hq⟩ := walkFiles_shape t p h
        exact ⟨t, List.mem_cons_self t ts, q, hq⟩
      · obtain ⟨u, hu, q, hq⟩ := ih p h
        exact ⟨u, List.mem_cons_of_mem t hu, q, hq⟩

mutual

theorem walkFiles_paths_nodup : ∀ (t : FsTree), wellFormed t →
    ((walkFiles t).map Prod.fst).Nodup
  | .file n c, _ => by
      rw [walkFiles]
      simp
  | .dir n cs, h => by
      have h' : (cs.map FsTree.name).Nodup ∧ wellFormedForest cs := by
        rw [wellFormed] at h
        exact h
      have hforest := walkForest_paths_nodup cs h'.1 h'.2
      rw [walkFiles, List.map_map]
      have e : (Prod.fst ∘ fun pc : List String × List Nat => (n :: pc.1, pc.2))
          = (fun q => n :: q) ∘ Prod.fst := rfl
      rw [e, ← List.map_map]
      exact hforest.map (fun a b hab => List.cons.inj hab |>.2)

theorem walkForest_paths_nodup : ∀ (ts : List FsTree),
    (ts.map FsTree.name).Nodup → wellFormedForest ts →
    ((walkForest ts).map Prod.fst).Nodup
  | [], _, _ => by
      rw [walkForest]
      simp
  | t :: ts, hn, hw => by
      have hw' : wellFormed t ∧ wellFormedForest ts := by
        rw [wellFormedForest] at hw
        exact hw
      rw [List.map_cons, List.nodup_cons] at hn
      rw [walkForest, List.map_append, List.nodup_append]
      refine ⟨walkFiles_paths_nodup t hw'.1,
        walkForest_paths_nodup ts hn.2 hw'.2, ?_⟩
      intro p hp1 hp2
      obtain ⟨pc1, hpc1, hfst1⟩ := List.mem_map.mp hp1
      obtain ⟨pc2, hpc2, hfst2⟩ := List.mem_map.mp hp2
      obtain ⟨q1, hq1⟩ := walkFiles_shape t pc1 hpc1
      obtain ⟨u, hu, q2, hq2⟩ := walkForest_shape ts pc2 hpc2
      apply hn.1
      have : t.name = u.name := by
        have e1 : p = t.name :: q1 := by rw [← hfst1, hq1]
        have e2 : p = u.name :: q2 := by rw [← hfst2, hq2]
        have := e1 ▸ e2
        exact (List.cons.inj this).1
      rw [this]
      exact List.mem_map.mpr ⟨u, hu, rfl⟩

end

/-- C9 counterexample: a scan whose source list names the same root twice —
a legal invocation with one or more source roots — produces two manifest
entries for the one reachable regular file, so the relativePath column of
one manifest is not pairwise distinct. -/
theorem C9_counterexample :
    ¬ (manifestPaths [FsTree.file "a" [], FsTree.file "a" []]).Nodup := by
  intro h
  rw [manifestPaths] at h
  simp only [List.map_cons, List.map_nil, walkFiles] at h
  simp at h

/-- C9 (amended): for a scan over a single source root whose directories
have pairwise distinct child names (as every real directory does), the
manifest contains exactly the regular files reachable by traversal, and
their relativePaths are pairwise distinct; with several roots, two roots
whose stripped paths coincide (for example the same root passed twice)
break the distinctness. -/
theorem C9_single_root_paths (t : FsTree) (h : wellFormed t) :
    manifestPaths [t] = (walkFiles t).map Prod.fst
    ∧ (manifestPaths [t]).Nodup := by
  have e : manifestPaths [t] = (walkFiles t).map Prod.fst := by
    simp [manifestPaths]
  exact ⟨e, e ▸ walkFiles_paths_nodup t h⟩

/-- Witness for C9's amended statement on a concrete two-file tree. -/
theorem C9_single_root_paths_witness :
    (manifestPaths [FsTree.dir "root" [FsTree.file "x" [],
      FsTree.file "y" []]]).Nodup :=
  (C9_single_root_paths
    (FsTree.dir "root" [FsTree.file "x" [], FsTree.file "y" []])
    (by
      rw [wellFormed]
      refine ⟨by decide, ?_⟩
      rw [wellFormedForest]
      refine ⟨by rw [wellFormed]; trivial, ?_⟩
      rw [wellFormedForest]
      refine ⟨by rw [wellFormed]; trivial, ?_⟩
      rw [wellFormedForest]
      trivial)).2

/-- Witness for C8 at a concrete two-byte file. -/
theorem C8_roundtrip_uncompressed_witness :
    decodeFrame (sendFile id ⟨"a", 2, 0, [], false⟩ [104, 105]) =
      some (⟨"a", 2, 0, false⟩, [104, 105]) :=
  C8_roundtrip_uncompressed id "a" 0 [] [104, 105] (by decide) (by decide)
    (by decide)

/-- C10: the --compress command-line flag has no effect: the frame a run
writes for a file — in particular whether its payload chunks are compressed
— is identical for every value of the flag, the compressed decision being
should_compress of the path alone, which holds exactly when the lower-cased
extension is in the fixed allow-list txt, log, csv, json, xml, html, css,
js, yaml, yml, md, toml. -/
theorem C10_compress_flag_no_effect (a : Args) (flag : Bool)
    (compress : List Nat → List Nat) (p : String) (mtime : Nat)
    (content : List Nat) :
    localFrame { a with compress := flag } compress p mtime content =
      localFrame a compress p mtime content
    ∧ entryCompressed { a with compress := flag } p = should_compress p
    ∧ (should_compress p = true ↔
        ((match extensionOf p with
          | none => ([] : List Char)
          | some cs => cs).map asciiLower) ∈ compressibleExts.map String.data) := by
  refine ⟨rfl, rfl, ?_⟩
  unfold should_compress
  simp
